import Mathlib

/-!
Verification of the fuzzy class-name resolver and query planner of the
fibo-qa-agent repository (src/tools/ontology_tools.py and src/planner.py),
via a shallow embedding of the Python source in Lean.

Conventions of the embedding:
* Python strings are Lean `String`s; character-level operations work on
  `String.data : List Char`.  Identifiers handled by the resolver are ASCII
  class names, so `Char.toLower` models `str.lower()`.
* difflib's `SequenceMatcher.ratio()` is the Ratcliff-Obershelp measure
  `2*M/T` where `M` is the total size of the matching blocks and
  `T = len(a)+len(b)`.  The two strings have no junk or autojunk elements
  (autojunk needs sequences of length >= 200), so `find_longest_match`
  returns the longest matching block, earliest in `a` and then earliest in
  `b`; the model computes exactly that.  Ratios are kept as exact fractions
  `(2*M, T)` of naturals and compared by cross-multiplication; for the
  string lengths involved this coincides with Python's float comparison,
  whose relative error is far below the spacing of these fractions.
* External collaborators (the owlready2 knowledge base, the HTTP reasoning
  service, `json.loads`) are parameters (oracles) of the embedded functions,
  following the spec, which scopes them out as external interfaces.
-/

set_option maxRecDepth 1000000

/-! ### Python string primitives -/

/-- Python `str.lower()` (identifiers are ASCII, see module conventions). -/
def pyLower (s : String) : String := ⟨s.data.map Char.toLower⟩

/-- Python `needle in hay` substring test on lists of characters. -/
def listContainsSub (hay needle : List Char) : Bool :=
  hay.tails.any (fun t => needle.isPrefixOf t)

/-- Python `needle in hay` substring test for strings. -/
def strContains (hay needle : String) : Bool :=
  listContainsSub hay.data needle.data

/-- Python string `<` (lexicographic by code point). -/
def strLtB : List Char → List Char → Bool
  | [], [] => false
  | [], _ :: _ => true
  | _ :: _, [] => false
  | a :: as, b :: bs => if a < b then true else if b < a then false else strLtB as bs

/-- One fuelled step of Python `str.replace` (leftmost, non-overlapping).
The fuel is the length of the subject string; each step consumes at least
one character, so `s.length` fuel always suffices for a non-empty pattern. -/
def replaceFuel : Nat → List Char → List Char → List Char → List Char
  | 0, s, _, _ => s
  | fuel + 1, s, pat, rep =>
    match s with
    | [] => []
    | c :: rest =>
      if pat ≠ [] ∧ pat.isPrefixOf (c :: rest) then
        rep ++ replaceFuel fuel ((c :: rest).drop pat.length) pat rep
      else c :: replaceFuel fuel rest pat rep

/-- Python `s.replace(pat, rep)` for a non-empty pattern. -/
def pyReplace (s pat rep : String) : String :=
  ⟨replaceFuel s.data.length s.data pat.data rep.data⟩

/-- Python `str.strip()` (whitespace from both ends). -/
def pyStrip (s : String) : String :=
  ⟨((s.data.dropWhile Char.isWhitespace).reverse.dropWhile Char.isWhitespace).reverse⟩

/-- Python `sep.join(parts)`. -/
def joinWith (sep : String) : List String → String
  | [] => ""
  | [p] => p
  | p :: ps => p ++ sep ++ joinWith sep ps

/-- How a Python f-string renders an `Optional[str]`: `None` prints as
`"None"`. -/
def pyStrOfOption : Option String → String
  | some s => s
  | none => "None"

/-! ### Model of difflib (SequenceMatcher.ratio, get_close_matches) -/

/-- Length of the common prefix of two character lists. -/
def commonRun : List Char → List Char → Nat
  | a :: as, b :: bs => if a = b then commonRun as bs + 1 else 0
  | _, _ => 0

/-- `SequenceMatcher.find_longest_match` with no junk: the longest matching
block `(i, j, size)`, ties resolved towards the smallest `i`, then the
smallest `j` (iteration is in lexicographic `(i, j)` order and the best
triple is replaced only on strictly larger size). -/
def findLongestMatch (a b : List Char) : Nat × Nat × Nat :=
  (List.range a.length).foldl
    (fun best i =>
      (List.range b.length).foldl
        (fun best j =>
          let k := commonRun (a.drop i) (b.drop j)
          if best.2.2 < k then (i, j, k) else best)
        best)
    (0, 0, 0)

/-- Total size `M` of the matching blocks of `SequenceMatcher`: recursively
take the longest match and recurse on the pieces to its left and right.
Fuelled; every recursive call strictly shrinks the combined length, so
`a.length + b.length` fuel always suffices. -/
def totalMatched : Nat → List Char → List Char → Nat
  | 0, _, _ => 0
  | fuel + 1, a, b =>
    let m := findLongestMatch a b
    if m.2.2 = 0 then 0
    else
      totalMatched fuel (a.take m.1) (b.take m.2.1) + m.2.2 +
        totalMatched fuel (a.drop (m.1 + m.2.2)) (b.drop (m.2.1 + m.2.2))

/-- Numerator `2*M` of `SequenceMatcher(a, b).ratio() = 2*M/T`. -/
def ratioNum (a b : String) : Nat :=
  2 * totalMatched (a.data.length + b.data.length) a.data b.data

/-- Denominator `T = len(a) + len(b)` of `SequenceMatcher(a, b).ratio()`. -/
def ratioDen (a b : String) : Nat := a.data.length + b.data.length

/-- `SequenceMatcher(a, b).ratio()` as an exact fraction; Python's
`_calculate_ratio` returns `1.0` when both strings are empty. -/
def ratioFrac (a b : String) : Nat × Nat :=
  if ratioDen a b = 0 then (1, 1) else (ratioNum a b, ratioDen a b)

/-- `SequenceMatcher(a, b).ratio() >= cnum/cden` (exact comparison). -/
def ratioGe (a b : String) (cnum cden : Nat) : Bool :=
  if ratioDen a b = 0 then cnum ≤ cden
  else cnum * ratioDen a b ≤ cden * ratioNum a b

/-- Descending order on `(ratio, string)` pairs as compared by
`heapq.nlargest`: Python tuple comparison, i.e. by ratio value and then by
the string, lexicographically by code point. `p` may precede `q` iff
`q <= p`. -/
def descPairRel (p q : (Nat × Nat) × String) : Prop :=
  q.1.1 * p.1.2 < p.1.1 * q.1.2 ∨
    (q.1.1 * p.1.2 = p.1.1 * q.1.2 ∧ (strLtB q.2.data p.2.data = true ∨ q.2 = p.2))

instance : DecidableRel descPairRel := fun p q => by
  unfold descPairRel; infer_instance

/-- `difflib.get_close_matches(word, possibilities, n, cutoff)` with the
cutoff given as the exact fraction `cnum/cden`: keep the possibilities whose
ratio to `word` reaches the cutoff (`real_quick_ratio` and `quick_ratio` are
upper bounds of `ratio`, so the chained test in difflib reduces to the
`ratio` test), then `heapq.nlargest(n, ...)`, i.e. the scored list sorted
descending (stably) and truncated to `n`. -/
def get_close_matches (word : String) (possibilities : List String)
    (n : Nat) (cnum cden : Nat) : List String :=
  let result := possibilities.filterMap (fun x =>
    if ratioGe x word cnum cden then some (ratioFrac x word, x) else none)
  ((List.insertionSort descPairRel result).take n).map Prod.snd

/-! ### The name resolver (get_class_suggestions and friends) -/

/-- Tier 2 of `get_class_suggestions`: candidates that contain the input or
are contained in it, case-insensitively. -/
def substringMatches (input_name : String) (candidates : List String) : List String :=
  candidates.filter (fun candidate =>
    strContains (pyLower candidate) (pyLower input_name) ||
      strContains (pyLower input_name) (pyLower candidate))

/-- Tier 4 of `get_class_suggestions`, before sorting: for inputs with more
than 2 distinct characters, candidates (paired with their overlap count)
whose distinct-character overlap with the input exceeds 3/4 of the input's
distinct characters.  The similarity `overlap / |set(input)|` has the fixed
denominator `|set(input)|`, so the overlap count represents it faithfully
for the subsequent comparisons and sort. -/
def charPairs (input_name : String) (candidates : List String) : List (String × Nat) :=
  let input_chars := (pyLower input_name).data.dedup
  candidates.filterMap (fun candidate =>
    let candidate_chars := (pyLower candidate).data.dedup
    if 2 < input_chars.length then
      let overlap := (input_chars.filter (fun ch => candidate_chars.contains ch)).length
      if 3 * input_chars.length < 4 * overlap then some (candidate, overlap) else none
    else none)

/-- Descending order on `(candidate, similarity)` pairs for the tier-4 sort
(`key=lambda x: x[1], reverse=True`, a stable sort). -/
def simRel (p q : String × Nat) : Prop := q.2 ≤ p.2

instance : DecidableRel simRel := fun p q => Nat.decLe q.2 p.2

/-- Tier 4 of `get_class_suggestions`: character-similarity matches sorted
by similarity, descending (stable, so candidate order breaks ties). -/
def charMatches (input_name : String) (candidates : List String) : List String :=
  (List.insertionSort simRel (charPairs input_name candidates)).map Prod.fst

/-- Tier 5 of `get_class_suggestions`: prefix/suffix matches in either
direction, case-insensitively. -/
def affixMatches (input_name : String) (candidates : List String) : List String :=
  candidates.filter (fun candidate =>
    let cl := (pyLower candidate).data
    let il := (pyLower input_name).data
    cl.isPrefixOf il || cl.isSuffixOf il || il.isPrefixOf cl || il.isSuffixOf cl)

/-- `all_suggestions` of `get_class_suggestions` after the first two
`extend`s: tier 2, then tier 3 filtered by `m not in all_suggestions`. -/
def allSuggestions2 (input_name : String) (candidates : List String)
    (max_suggestions : Nat) : List String :=
  substringMatches input_name candidates ++
    (get_close_matches input_name candidates (max_suggestions * 2) 3 5).filter
      (fun m => !((substringMatches input_name candidates).contains m))

/-- `all_suggestions` after the third `extend` (tier 4 filtered). -/
def allSuggestions3 (input_name : String) (candidates : List String)
    (max_suggestions : Nat) : List String :=
  allSuggestions2 input_name candidates max_suggestions ++
    (charMatches input_name candidates).filter
      (fun m => !((allSuggestions2 input_name candidates max_suggestions).contains m))

/-- `all_suggestions` after the fourth `extend` (tier 5 filtered). -/
def allSuggestions4 (input_name : String) (candidates : List String)
    (max_suggestions : Nat) : List String :=
  allSuggestions3 input_name candidates max_suggestions ++
    (affixMatches input_name candidates).filter
      (fun m => !((allSuggestions3 input_name candidates max_suggestions).contains m))

/-- Tiers 2-5 of `get_class_suggestions` concatenated in priority order,
each new tier filtered against everything already accumulated
(`m not in all_suggestions`), truncated to `max_suggestions`
(`final_suggestions = all_suggestions[:max_suggestions]`). -/
def combined_suggestions (input_name : String) (candidates : List String)
    (max_suggestions : Nat) : List String :=
  (allSuggestions4 input_name candidates max_suggestions).take max_suggestions

/-- The result dictionary of `get_class_suggestions`.  The Python key
`"match"` is the field `matched` (`match` is reserved in Lean). -/
structure SuggestionResult where
  type : String
  matched : Option String
  suggestions : List String
deriving DecidableEq

/-- `get_class_suggestions(input_name, max_suggestions=3)` from
src/tools/ontology_tools.py, with the candidate list (obtained in Python
from `get_class_candidates()`, a sorted duplicate-free list of class names)
passed as a parameter. -/
def get_class_suggestions (input_name : String) (candidates : List String)
    (max_suggestions : Nat) : SuggestionResult :=
  if candidates = [] then ⟨"none", none, []⟩
  else
    match candidates.filter (fun c => pyLower c == pyLower input_name) with
    | exact0 :: _ => ⟨"exact", some exact0, []⟩
    | [] =>
      let final_suggestions := combined_suggestions input_name candidates max_suggestions
      if final_suggestions = [] then ⟨"none", none, []⟩
      else ⟨"suggestions", none, final_suggestions⟩

/-- `resolve_class_name_fuzzy(input_name)` from src/tools/ontology_tools.py:
exact match, else the single best of the suggestion list at cutoff 0.8, else
no name. -/
def resolve_class_name_fuzzy (input_name : String) (candidates : List String) :
    Option String :=
  let result := get_class_suggestions input_name candidates 3
  if result.type == "exact" then result.matched
  else if result.type == "suggestions" then
    if result.suggestions ≠ [] then
      match get_close_matches input_name result.suggestions 1 4 5 with
      | best :: _ => some best
      | [] => none
    else none
  else none

/-- `format_suggestions_message(input_name)` from
src/tools/ontology_tools.py (`None` for an exact match). -/
def format_suggestions_message (input_name : String) (candidates : List String) :
    Option String :=
  let result := get_class_suggestions input_name candidates 3
  if result.type == "exact" then none
  else if result.type == "suggestions" then
    match result.suggestions with
    | [s] => some ("💡 Did you mean '" ++ s ++ "'? Try: explain " ++ s)
    | ss => some ("💡 Did you mean one of these?\n" ++
        joinWith "\n" (ss.map (fun s => "   • " ++ s)))
  else some ("❌ No similar classes found for '" ++ input_name ++
    "'. Try 'list classes' to see available options.")


/-! ### Knowledge-base operations (src/tools/ontology_tools.py)

The owlready2 world is modelled by the data the embedded functions read
from it: a list of loaded ontologies, each carrying its classes (with
optional `name`, `label` list, `comment` list and optional `iri`) and its
properties and individuals (only their optional `name` is read).  The
global `onto` of the module is `Option Ontology` (`None` before any load).
For the operations whose loaded-path behaviour is pure owlready2 graph
search (scoped out by the spec as the external knowledge-base
collaborator), that path is an oracle parameter `loaded_case`. -/

/-- An owlready2 class as read by the embedded functions: `name`/`iri` are
`none` when `hasattr` fails. -/
structure OwlClass where
  name : Option String
  labels : List String
  comments : List String
  iri : Option String
deriving DecidableEq

/-- An owlready2 property or individual: only its optional name is read. -/
structure OwlNamed where
  name : Option String
deriving DecidableEq

/-- An owlready2 ontology as read by the embedded functions. -/
structure Ontology where
  classes : List OwlClass
  properties : List OwlNamed
  individuals : List OwlNamed
deriving DecidableEq

/-- `MODULE_SETS` from src/tools/ontology_tools.py as
`(key, display name, module files)` triples. -/
def MODULE_SETS : List (String × String × List String) :=
  [("core", "Core Financial Concepts",
    ["FND/Accounting/AccountingEquity.rdf",
     "FND/OwnershipAndControl/Ownership.rdf",
     "SEC/Equities/EquityInstruments.rdf"]),
   ("comprehensive", "Comprehensive Financial Ontology",
    ["FND/Accounting/AccountingEquity.rdf",
     "FND/OwnershipAndControl/Ownership.rdf",
     "SEC/Equities/EquityInstruments.rdf",
     "FND/Accounting/CurrencyAmount.rdf",
     "FND/Relations/Relations.rdf",
     "FND/Utilities/Values.rdf",
     "FND/DatesAndTimes/FinancialDates.rdf",
     "SEC/Securities/Securities.rdf",
     "SEC/Securities/SecuritiesIdentification.rdf",
     "SEC/Securities/SecuritiesIssuance.rdf",
     "SEC/Securities/SecuritiesListings.rdf",
     "FBC/FinancialInstruments/FinancialInstruments.rdf",
     "FBC/ProductsAndServices/FinancialProductsAndServices.rdf",
     "FBC/FunctionalEntities/FinancialServicesEntities.rdf",
     "FBC/DebtAndEquities/Debt.rdf",
     "BE/LegalEntities/LegalPersons.rdf"]),
   ("banking", "Banking & Financial Services",
    ["FND/Accounting/AccountingEquity.rdf",
     "FND/Accounting/CurrencyAmount.rdf",
     "FBC/FinancialInstruments/FinancialInstruments.rdf",
     "FBC/ProductsAndServices/FinancialProductsAndServices.rdf",
     "FBC/FunctionalEntities/FinancialServicesEntities.rdf",
     "FBC/DebtAndEquities/Debt.rdf"]),
   ("securities", "Securities & Capital Markets",
    ["SEC/Equities/EquityInstruments.rdf",
     "SEC/Securities/Securities.rdf",
     "SEC/Securities/SecuritiesIdentification.rdf",
     "SEC/Securities/SecuritiesIssuance.rdf",
     "SEC/Securities/SecuritiesListings.rdf",
     "FBC/FinancialInstruments/FinancialInstruments.rdf"])]

/-- `MODULE_SETS[key]['name']`.  Python raises `KeyError` for a missing
key; the states reachable in the program always use one of the four keys. -/
def moduleSetDisplayName (key : String) : String :=
  match MODULE_SETS.find? (fun e => e.1 == key) with
  | some e => e.2.1
  | none => ""

/-- Python `'a/b/c'.split('/')` on character lists. -/
def splitOnSlash (s : List Char) : List (List Char) :=
  s.foldr
    (fun c acc =>
      match acc with
      | g :: gs => if c = '/' then [] :: g :: gs else (c :: g) :: gs
      | [] => [[c]])
    [[]]

/-- `comment_str[:100] + "..." if len(comment_str) > 100 else comment_str`
from `search_classes_by_keyword`. -/
def truncateMatchText (comment_str : String) : String :=
  if 100 < comment_str.data.length then ⟨comment_str.data.take 100⟩ ++ "..." else comment_str

/-- One entry of the `matches` list of `search_classes_by_keyword`. -/
structure KeywordMatch where
  name : String
  match_type : String
  match_text : String
deriving DecidableEq

/-- `search_classes_by_keyword(keyword)` from src/tools/ontology_tools.py.
It iterates over every class of every ontology of the current world; it
performs no loaded-ontology check.  A class whose name matches contributes
one `name` entry; otherwise the first matching label and, independently,
the first matching comment each contribute an entry (the Python label loop
`break`s but does not `continue`, so a class can contribute both). -/
def search_classes_by_keyword (world_ontologies : List Ontology) (keyword : String) :
    String :=
  let keyword_lower := pyLower keyword
  let match_list := world_ontologies.flatMap (fun o => o.classes.flatMap (fun cls =>
    match cls.name with
    | none => []
    | some nm =>
      if strContains (pyLower nm) keyword_lower then [(⟨nm, "name", nm⟩ : KeywordMatch)]
      else
        (match cls.labels.find? (fun l => strContains (pyLower l) keyword_lower) with
         | some l => [(⟨nm, "label", l⟩ : KeywordMatch)]
         | none => []) ++
        (match cls.comments.find? (fun c => strContains (pyLower c) keyword_lower) with
         | some c => [(⟨nm, "comment", truncateMatchText c⟩ : KeywordMatch)]
         | none => [])))
  if match_list = [] then "❌ No classes found containing '" ++ keyword ++ "'"
  else
    joinWith "\n"
      ((("🔍 Found " ++ toString match_list.length ++ " classes containing '" ++
          keyword ++ "':") ::
        (match_list.take 15).map (fun m =>
          "  📛 " ++ m.name ++ " (" ++ m.match_type ++ ": " ++ m.match_text ++ ")")) ++
        (if 15 < match_list.length then
          ["  ... and " ++ toString (match_list.length - 15) ++ " more matches"]
        else []))

/-- Ascending order on strings for Python `sorted`. -/
def strAscRel (p q : String) : Prop := strLtB p.data q.data = true ∨ p = q

instance : DecidableRel strAscRel := fun p q => by
  unfold strAscRel; infer_instance

/-- `get_ontology_stats()` from src/tools/ontology_tools.py (the reachable
code before its first `return`; everything after it is dead).  Counts named
classes/properties/individuals over all ontologies of the world and groups
FIBO classes by the module key `parts[-3:-1]` of their IRI. -/
def get_ontology_stats (world_ontologies : List Ontology)
    (current_module_set : String) (module_files : List String) : String :=
  if world_ontologies = [] then "❌ No ontology loaded. Please load modules first."
  else
    let all_classes := world_ontologies.flatMap (fun o =>
      o.classes.filter (fun c => c.name.isSome))
    let all_properties := world_ontologies.flatMap (fun o =>
      o.properties.filter (fun p => p.name.isSome))
    let all_individuals := world_ontologies.flatMap (fun o =>
      o.individuals.filter (fun i => i.name.isSome))
    let module_keys := all_classes.filterMap (fun cls =>
      match cls.iri with
      | some iri =>
        if strContains (pyLower iri) "fibo" then
          let parts := splitOnSlash iri.data
          if 3 ≤ parts.length then
            some (joinWith "/" (((parts.drop (parts.length - 3)).take 2).map
              (fun p => (⟨p⟩ : String))))
          else none
        else none
      | none => none)
    let module_lines :=
      if module_keys = [] then []
      else "\n📂 Classes by Module:" ::
        (List.insertionSort strAscRel module_keys.dedup).map (fun k =>
          "  " ++ k ++ ": " ++ toString (module_keys.count k) ++ " classes")
    joinWith "\n"
      (["📊 FIBO Ontology Statistics - " ++ moduleSetDisplayName current_module_set ++ ":",
        "  📛 Classes: " ++ toString all_classes.length,
        "  🔧 Properties: " ++ toString all_properties.length,
        "  👤 Individuals: " ++ toString all_individuals.length,
        "  📦 Loaded modules: " ++ toString module_files.length,
        "  🎯 Current module set: " ++ current_module_set] ++ module_lines)

/-- `get_superclasses(class_name)` from src/tools/ontology_tools.py.  After
the `onto is None` precondition check the function only queries the external
owlready2 collaborator (`search_one`, `is_a`), abstracted as `loaded_case`. -/
def get_superclasses (onto : Option Ontology) (loaded_case : Ontology → String → String)
    (class_name : String) : String :=
  match onto with
  | none => "❌ No ontology loaded. Please load modules first."
  | some o => loaded_case o class_name

/-- `get_properties(class_name)` from src/tools/ontology_tools.py; same
precondition shape as `get_superclasses`. -/
def get_properties (onto : Option Ontology) (loaded_case : Ontology → String → String)
    (class_name : String) : String :=
  match onto with
  | none => "❌ No ontology loaded. Please load modules first."
  | some o => loaded_case o class_name

/-- `explain_relationship(class1, class2)` from src/tools/ontology_tools.py;
same precondition shape, two entity names. -/
def explain_relationship (onto : Option Ontology)
    (loaded_case : Ontology → String → String → String)
    (class1 class2 : String) : String :=
  match onto with
  | none => "❌ No ontology loaded. Please load modules first."
  | some o => loaded_case o class1 class2

/-! ### The query planner and executor (src/planner.py)

The knowledge-base operations dispatched by `execute_single_function` are
the external collaborator; they are one oracle
`kb : String → List String → String` mapping the operation name and its
(resolved) arguments to the pre-formatted text the Python function returns.
The argument lists of a parsed plan are modelled as lists of strings (the
only arguments the executor inspects are entity names). -/

/-- A parsed `{"function": ..., "arguments": [...]}` call. -/
structure FuncCall where
  function : String
  arguments : List String
deriving DecidableEq

/-- The `{"function": ..., "output": ...}` dictionary returned by
`execute_single_function`. -/
structure StepResult where
  function : String
  output : String
deriving DecidableEq

/-- `single_class_functions` from `execute_single_function`. -/
def single_class_functions : List String :=
  ["get_superclasses", "get_subclasses", "get_properties",
   "describe_class", "explain_class", "get_related_concepts",
   "get_class_info", "get_all_superclasses", "get_inferred_properties"]

/-- `list_classes()` from src/planner.py. -/
def list_classes (candidates : List String) : String :=
  joinWith "\n" ((candidates.take 100).map (fun name => "• " ++ name)) ++
    (if 100 < candidates.length then "\n... (truncated)" else "")

/-- The `"❌ Class '...' not found.\n..."` message of
`execute_single_function` (a Python f-string, so a `None` suggestion
message would render as `"None"`). -/
def classNotFoundOutput (original_name : String) (candidates : List String) : String :=
  "❌ Class '" ++ original_name ++ "' not found.\n" ++
    pyStrOfOption (format_suggestions_message original_name candidates)

/-- The final dispatch chain of `execute_single_function`: every branch
calls the knowledge-base collaborator with the (already resolved) argument
list, except the two-name operations called with fewer than two arguments
and unknown operation names. -/
def dispatchCall (kb : String → List String → String) (func : String)
    (args : List String) : StepResult :=
  if func = "get_superclasses" then ⟨func, kb "get_superclasses" args⟩
  else if func = "get_subclasses" then ⟨func, kb "get_subclasses" args⟩
  else if func = "get_properties" then ⟨func, kb "get_properties" args⟩
  else if func = "describe_class" then ⟨func, kb "describe_class" args⟩
  else if func = "explain_class" then ⟨func, kb "explain_class" args⟩
  else if func = "get_class_info" then ⟨func, kb "get_class_info" args⟩
  else if func = "get_all_superclasses" then ⟨func, kb "get_all_superclasses" args⟩
  else if func = "get_inferred_properties" then ⟨func, kb "get_inferred_properties" args⟩
  else if func = "get_related_concepts" then ⟨func, kb "get_related_concepts" args⟩
  else if func = "explain_relationship" then
    if 2 ≤ args.length then ⟨func, kb "explain_relationship" (args.take 2)⟩
    else ⟨func, "❌ explain_relationship requires two class names"⟩
  else if func = "get_reasoning_chain" then
    if 2 ≤ args.length then ⟨func, kb "get_reasoning_chain" (args.take 2)⟩
    else ⟨func, "❌ get_reasoning_chain requires two class names"⟩
  else if func = "get_property_details" then ⟨func, kb "get_property_details" args⟩
  else ⟨func, "❌ Unsupported function: " ++ func⟩

/-- The two-name resolution step of `execute_single_function` followed by
the dispatch: for `explain_relationship`/`get_reasoning_chain` with at
least two arguments, resolve both names in order, short-circuiting on the
first that does not resolve. -/
def executeAfterSingle (candidates : List String) (kb : String → List String → String)
    (func : String) (args : List String) : StepResult :=
  if func = "explain_relationship" ∨ func = "get_reasoning_chain" then
    match args with
    | a :: b :: rest =>
      match resolve_class_name_fuzzy a candidates with
      | none => ⟨func, classNotFoundOutput a candidates⟩
      | some r1 =>
        match resolve_class_name_fuzzy b candidates with
        | none => ⟨func, classNotFoundOutput b candidates⟩
        | some r2 => dispatchCall kb func (r1 :: r2 :: rest)
    | _ => dispatchCall kb func args
  else dispatchCall kb func args

/-- `execute_single_function(func_call)` from src/planner.py: the
operations that take no entity name are handled first; then any entity-name
arguments are resolved through `resolve_class_name_fuzzy` and substituted
in place, short-circuiting with a not-found message (and without invoking
the knowledge-base collaborator) when resolution fails. -/
def execute_single_function (candidates : List String)
    (kb : String → List String → String) (func_call : FuncCall) : StepResult :=
  let func := func_call.function
  let args := func_call.arguments
  if func = "list_classes" then ⟨func, list_classes candidates⟩
  else if func = "get_ontology_stats" then ⟨func, kb "get_ontology_stats" []⟩
  else if func = "search_classes_by_keyword" then
    if args = [] then ⟨func, "❌ search_classes_by_keyword requires a keyword argument"⟩
    else ⟨func, kb "search_classes_by_keyword" args⟩
  else if single_class_functions.contains func then
    match args with
    | original_name :: rest =>
      (match resolve_class_name_fuzzy original_name candidates with
       | none => ⟨func, classNotFoundOutput original_name candidates⟩
       | some resolved => executeAfterSingle candidates kb func (resolved :: rest))
    | [] => executeAfterSingle candidates kb func args
  else executeAfterSingle candidates kb func args

/-- One step of a parsed multi-step plan: a function call, an
`{"step": "analysis", "instruction": ...}` synthesis step (the instruction
key may be absent), or any other dictionary, which the execution loop
silently skips. -/
inductive PlanStep where
  | call (func_call : FuncCall)
  | analysis (instruction : Option String)
  | skipped
deriving DecidableEq

/-- The execution loop of the multi-step branch of
`run_natural_language_query`, threading the `(results, final_analysis)`
accumulator step by step: function steps append their result to `results`;
analysis steps set `final_analysis` from the synthesis oracle
(`gemma_synthesize_results`, an external LLM call) applied to the results
collected so far; other steps are skipped. -/
def runPlanStepsFrom (candidates : List String) (kb : String → List String → String)
    (synth : String → List StepResult → String) :
    List StepResult × Option String → List PlanStep → List StepResult × Option String
  | acc, [] => acc
  | acc, step :: rest =>
    runPlanStepsFrom candidates kb synth
      (match step with
       | PlanStep.call fc => (acc.1 ++ [execute_single_function candidates kb fc], acc.2)
       | PlanStep.analysis instruction =>
         (acc.1, some (synth (instruction.getD "Analyze and synthesize the results") acc.1))
       | PlanStep.skipped => acc)
      rest

/-- The execution loop started on empty collected results and no
analysis. -/
def runPlanSteps (candidates : List String) (kb : String → List String → String)
    (synth : String → List StepResult → String) (plan : List PlanStep) :
    List StepResult × Option String :=
  runPlanStepsFrom candidates kb synth ([], none) plan

/-- The `### {i}. {function}` / output / blank-line sections of the final
response, one per collected result, numbered from `i`. -/
def resultSections : Nat → List StepResult → List String
  | _, [] => []
  | i, r :: rs =>
    ("### " ++ toString i ++ ". " ++ r.function) :: r.output :: "" :: resultSections (i + 1) rs

/-- `response_parts` of the multi-step branch of
`run_natural_language_query`: the individual-results header and sections,
then the separator line and the synthesis text when an analysis ran. -/
def multiStepResponseParts (results : List StepResult) (final_analysis : Option String) :
    List String :=
  ("📋 **Individual Results:**\n" :: resultSections 1 results) ++
    (match final_analysis with
     | some analysis => [(⟨List.replicate 60 '='⟩ : String), analysis]
     | none => [])

/-- A parsed plan: a single call (a JSON object with a `"function"` key), a
multi-step plan (a JSON array), or any other JSON value, rejected with its
rendered text. -/
inductive Plan where
  | single (func_call : FuncCall)
  | multi (steps : List PlanStep)
  | invalid (rendered : String)
deriving DecidableEq

/-- `complex_indicators` from `is_complex_query` in src/planner.py. -/
def complex_indicators : List String :=
  ["compare", "analyze", "structure", "complete", "comprehensive",
   "differences", "similarities", "relationship between", "all about",
   "overview of", "breakdown", "in detail", "thorough", "full analysis"]

/-- `is_complex_query(user_input)` from src/planner.py. -/
def is_complex_query (user_input : String) : Bool :=
  complex_indicators.any (fun indicator => strContains (pyLower user_input) indicator)

/-- The code-fence cleanup of `run_natural_language_query`: when the reply
contains triple backticks, drop every ` ```json ` and ` ``` ` marker and
strip surrounding whitespace. -/
def strip_code_fences (raw_plan : String) : String :=
  if strContains raw_plan "```" then
    pyStrip (pyReplace (pyReplace raw_plan "```json" "") "```" "")
  else raw_plan

/-- `run_natural_language_query(user_input)` from src/planner.py.  The
external reasoning service is the oracle `llm` (user text and the
simple/multi-step flag to raw reply text); `json.loads` plus the
`isinstance` dispatch is the oracle `parse` (`none` models
`json.JSONDecodeError`). -/
def run_natural_language_query (llm : String → Bool → String)
    (parse : String → Option Plan) (candidates : List String)
    (kb : String → List String → String)
    (synth : String → List StepResult → String) (user_input : String) : String :=
  let use_multi_step := is_complex_query user_input
  let raw_plan := strip_code_fences (llm user_input use_multi_step)
  match parse raw_plan with
  | none => "❌ Failed to parse LLM output as JSON:\n" ++ raw_plan
  | some (Plan.single fc) => (execute_single_function candidates kb fc).output
  | some (Plan.multi steps) =>
    let rf := runPlanSteps candidates kb synth steps
    joinWith "\n" (multiStepResponseParts rf.1 rf.2)
  | some (Plan.invalid rendered) => "❌ Invalid plan format: " ++ rendered

/-! ### Helper lemmas -/

/-- Case analysis on the three result shapes of `get_class_suggestions`. -/
theorem gcs_shape (s : String) (C : List String) (k : Nat) :
    (∃ e tl, C.filter (fun c => pyLower c == pyLower s) = e :: tl ∧ C ≠ [] ∧
      get_class_suggestions s C k = ⟨"exact", some e, []⟩) ∨
    (get_class_suggestions s C k = ⟨"none", none, []⟩ ∧
      (C = [] ∨ (C.filter (fun c => pyLower c == pyLower s) = [] ∧
        combined_suggestions s C k = []))) ∨
    (C ≠ [] ∧ C.filter (fun c => pyLower c == pyLower s) = [] ∧
      combined_suggestions s C k ≠ [] ∧
      get_class_suggestions s C k =
        ⟨"suggestions", none, combined_suggestions s C k⟩) := by
  by_cases hC : C = []
  · subst hC
    exact Or.inr (Or.inl ⟨by simp [get_class_suggestions], Or.inl rfl⟩)
  · cases hf : C.filter (fun c => pyLower c == pyLower s) with
    | cons e tl =>
      exact Or.inl ⟨e, tl, rfl, hC, by simp [get_class_suggestions, hC, hf]⟩
    | nil =>
      by_cases hcs : combined_suggestions s C k = []
      · exact Or.inr (Or.inl ⟨by simp [get_class_suggestions, hC, hf, hcs],
          Or.inr ⟨rfl, hcs⟩⟩)
      · exact Or.inr (Or.inr ⟨hC, rfl, hcs,
          by simp [get_class_suggestions, hC, hf, hcs]⟩)

/-- If `f` recovers its argument through `g`, mapping `g` over a
`filterMap f` gives back a sublist. -/
theorem map_filterMap_sublist {α β : Type} (f : α → Option β) (g : β → α)
    (hf : ∀ x y, f x = some y → g y = x) :
    ∀ l : List α, List.Sublist ((l.filterMap f).map g) l := by
  intro l
  induction l with
  | nil => simp
  | cons a t ih =>
    cases h : f a with
    | none => simpa [List.filterMap_cons, h] using ih.cons a
    | some b => simpa [List.filterMap_cons, h, hf a b h] using ih.cons₂ a

/-- The strings returned by `get_close_matches` are a permutation of a
sublist of the possibilities (they come from filtering, stably sorting and
truncating). -/
theorem get_close_matches_subset (word : String) (l : List String)
    (n cnum cden : Nat) :
    ∀ x ∈ get_close_matches word l n cnum cden, x ∈ l := by
  intro x hx
  unfold get_close_matches at hx
  have h1 : List.Sublist
      ((l.filterMap (fun x =>
        if ratioGe x word cnum cden then some (ratioFrac x word, x) else none)).map
        Prod.snd) l := by
    apply map_filterMap_sublist
    intro y p hp
    by_cases hc : ratioGe y word cnum cden <;> simp [hc] at hp
    rw [← hp]
  have h2 := (List.perm_insertionSort descPairRel
    (l.filterMap (fun x =>
      if ratioGe x word cnum cden then some (ratioFrac x word, x) else none))).map
    Prod.snd
  have h3 := ((List.take_sublist n _).map Prod.snd).subset hx
  exact h1.subset (h2.mem_iff.mp h3)

/-- `get_close_matches` of a duplicate-free list is duplicate-free. -/
theorem get_close_matches_nodup (word : String) (l : List String)
    (n cnum cden : Nat) (hl : l.Nodup) :
    (get_close_matches word l n cnum cden).Nodup := by
  unfold get_close_matches
  have h1 : List.Sublist
      ((l.filterMap (fun x =>
        if ratioGe x word cnum cden then some (ratioFrac x word, x) else none)).map
        Prod.snd) l := by
    apply map_filterMap_sublist
    intro y p hp
    by_cases hc : ratioGe y word cnum cden <;> simp [hc] at hp
    rw [← hp]
  have h2 := (List.perm_insertionSort descPairRel
    (l.filterMap (fun x =>
      if ratioGe x word cnum cden then some (ratioFrac x word, x) else none))).map
    Prod.snd
  exact ((List.take_sublist n _).map Prod.snd).nodup (h2.symm.nodup (h1.nodup hl))

/-- `charMatches` of a duplicate-free candidate list is duplicate-free. -/
theorem charMatches_nodup (s : String) (C : List String) (hC : C.Nodup) :
    (charMatches s C).Nodup := by
  unfold charMatches
  have h1 : List.Sublist ((charPairs s C).map Prod.fst) C := by
    unfold charPairs
    apply map_filterMap_sublist
    intro y p hp
    simp only at hp
    split at hp
    · split at hp
      · exact (Option.some.inj hp) ▸ rfl
      · exact absurd hp (by simp)
    · exact absurd hp (by simp)
  have h2 := (List.perm_insertionSort simRel (charPairs s C)).map Prod.fst
  exact h2.symm.nodup (h1.nodup hC)

/-- Appending a list filtered by `m not in acc` to `acc` preserves
duplicate-freeness. -/
theorem nodup_append_notin_filter (l₁ l₂ : List String) (h1 : l₁.Nodup)
    (h2 : l₂.Nodup) :
    (l₁ ++ l₂.filter (fun m => !(l₁.contains m))).Nodup := by
  refine h1.append (h2.filter _) ?_
  intro a ha hb
  have hx := List.mem_filter.mp hb
  simp only [Bool.not_eq_true'] at hx
  have : a ∉ l₁ := by simpa using hx.2
  exact this ha

/-- The accumulated suggestion list is duplicate-free for duplicate-free
candidates. -/
theorem allSuggestions4_nodup (s : String) (C : List String) (k : Nat)
    (hC : C.Nodup) : (allSuggestions4 s C k).Nodup := by
  unfold allSuggestions4 allSuggestions3 allSuggestions2
  apply nodup_append_notin_filter
  · apply nodup_append_notin_filter
    · exact nodup_append_notin_filter _ _ (hC.filter _)
        (get_close_matches_nodup s C (k * 2) 3 5 hC)
    · exact charMatches_nodup s C hC
  · exact hC.filter _

/-! ### Claims -/

/-- Claim C10: every result of the resolver has exactly one of three
well-formed shapes: type `"exact"` with a populated match and an empty
suggestion list, type `"suggestions"` with no match and a non-empty
suggestion list, or type `"none"` with no match and an empty suggestion
list; the match field and a non-empty suggestion list are never populated
together. -/
theorem resolver_result_shape_invariant (s : String) (C : List String) (k : Nat) :
    ((get_class_suggestions s C k).type = "exact" ∧
      (get_class_suggestions s C k).matched.isSome = true ∧
      (get_class_suggestions s C k).suggestions = []) ∨
    ((get_class_suggestions s C k).type = "suggestions" ∧
      (get_class_suggestions s C k).matched = none ∧
      (get_class_suggestions s C k).suggestions.isEmpty = false) ∨
    ((get_class_suggestions s C k).type = "none" ∧
      (get_class_suggestions s C k).matched = none ∧
      (get_class_suggestions s C k).suggestions = []) := by
  rcases gcs_shape s C k with ⟨e, tl, _, _, heq⟩ | ⟨heq, _⟩ | ⟨_, _, hne, heq⟩
  · exact Or.inl (by rw [heq]; exact ⟨rfl, rfl, rfl⟩)
  · exact Or.inr (Or.inr (by rw [heq]; exact ⟨rfl, rfl, rfl⟩))
  · refine Or.inr (Or.inl ?_)
    rw [heq]
    refine ⟨rfl, rfl, ?_⟩
    cases hcs : combined_suggestions s C k with
    | nil => exact absurd hcs hne
    | cons a t => simp [hcs]

/-- Claim C1: the resolver returns type `"exact"` iff some candidate equals
the input ignoring case; when one exists, the result is the exact-match
shape carrying such a candidate in its stored (canonical) casing, with an
empty suggestion list, so the exact tier pre-empts every similarity
heuristic. -/
theorem exact_match_iff_case_insensitive (s : String) (C : List String) (k : Nat) :
    ((get_class_suggestions s C k).type = "exact" ↔
      ∃ c ∈ C, pyLower c = pyLower s) ∧
    (∀ c ∈ C, pyLower c = pyLower s →
      ∃ e ∈ C, pyLower e = pyLower s ∧
        get_class_suggestions s C k = ⟨"exact", some e, []⟩) := by
  rcases gcs_shape s C k with ⟨e, tl, hf, hC, heq⟩ | ⟨heq, hor⟩ | ⟨hC, hf, hne, heq⟩
  · have he : e ∈ C.filter (fun c => pyLower c == pyLower s) := by
      rw [hf]; exact List.mem_cons_self e tl
    have he2 := List.mem_filter.mp he
    have heeq : pyLower e = pyLower s := by simpa using he2.2
    constructor
    · rw [heq]
      exact ⟨fun _ => ⟨e, he2.1, heeq⟩, fun _ => rfl⟩
    · intro c _ _
      exact ⟨e, he2.1, heeq, heq⟩
  · have hno : ¬ ∃ c ∈ C, pyLower c = pyLower s := by
      rintro ⟨c, hc, hceq⟩
      rcases hor with h | ⟨hf, _⟩
      · exact absurd hc (h ▸ List.not_mem_nil c)
      · exact (List.filter_eq_nil_iff.mp hf c hc) (by simpa using hceq)
    constructor
    · rw [heq]
      exact ⟨fun h => absurd h (by simp), fun h => absurd h hno⟩
    · intro c hc hceq
      exact absurd ⟨c, hc, hceq⟩ hno
  · have hno : ¬ ∃ c ∈ C, pyLower c = pyLower s := by
      rintro ⟨c, hc, hceq⟩
      exact (List.filter_eq_nil_iff.mp hf c hc) (by simpa using hceq)
    constructor
    · rw [heq]
      exact ⟨fun h => absurd h (by simp), fun h => absurd h hno⟩
    · intro c hc hceq
      exact absurd ⟨c, hc, hceq⟩ hno

/-- Witness for C1 at a concrete input: `"ownersequity"` resolves exactly to
the canonical `"OwnersEquity"`. -/
theorem exact_match_iff_case_insensitive_witness :
    ∃ e ∈ ["CapitalSurplus", "OwnersEquity", "PaidInCapital"],
      pyLower e = pyLower "ownersequity" ∧
      get_class_suggestions "ownersequity"
        ["CapitalSurplus", "OwnersEquity", "PaidInCapital"] 3 =
        ⟨"exact", some e, []⟩ :=
  (exact_match_iff_case_insensitive "ownersequity"
    ["CapitalSurplus", "OwnersEquity", "PaidInCapital"] 3).2
    "OwnersEquity" (by decide) (by decide)

/-- Claim C5: when no tier matches (no case-insensitive equal, no substring
match, no close match, no character-overlap match, no prefix/suffix match),
the resolver returns the explicit `"none"` result with no match and an
empty suggestion list.  The embedded function is total, mirroring that the
Python function raises no exception on this path. -/
theorem unmatched_input_yields_none (s : String) (C : List String) (k : Nat)
    (hex : C.filter (fun c => pyLower c == pyLower s) = [])
    (hsub : substringMatches s C = [])
    (hclose : get_close_matches s C (k * 2) 3 5 = [])
    (hchar : charMatches s C = [])
    (haff : affixMatches s C = []) :
    get_class_suggestions s C k = ⟨"none", none, []⟩ := by
  have hcomb : combined_suggestions s C k = [] := by
    unfold combined_suggestions allSuggestions4 allSuggestions3 allSuggestions2
    rw [hsub, hclose, hchar, haff]
    simp
  by_cases hC : C = []
  · simp [get_class_suggestions, hC]
  · simp [get_class_suggestions, hC, hex, hcomb]

/-- Witness for C5: the spec's scenario input `"xyz123nonexistent"`. -/
theorem unmatched_input_yields_none_witness :
    get_class_suggestions "xyz123nonexistent"
      ["CapitalSurplus", "OwnersEquity", "PaidInCapital"] 3 =
      ⟨"none", none, []⟩ :=
  unmatched_input_yields_none "xyz123nonexistent"
    ["CapitalSurplus", "OwnersEquity", "PaidInCapital"] 3
    (by decide) (by decide) (by decide) (by decide) (by decide)

/-- Claim C2: the suggestion list never exceeds `max_suggestions` entries
and has no duplicates.  The candidate list is duplicate-free, as
`get_class_candidates()` builds it with `sorted(set(...))`. -/
theorem suggestion_list_bounded_and_nodup (s : String) (C : List String) (k : Nat)
    (hC : C.Nodup) :
    (get_class_suggestions s C k).suggestions.length ≤ k ∧
    (get_class_suggestions s C k).suggestions.Nodup := by
  rcases gcs_shape s C k with ⟨e, tl, _, _, heq⟩ | ⟨heq, _⟩ | ⟨_, _, _, heq⟩ <;> rw [heq]
  · simp
  · simp
  · constructor
    · unfold combined_suggestions
      simp [List.length_take]
    · exact (List.take_sublist _ _).nodup (allSuggestions4_nodup s C k hC)

/-- Witness for C2 at a concrete input that exercises several tiers. -/
theorem suggestion_list_bounded_and_nodup_witness :
    (get_class_suggestions "Equty"
      ["DebtInstrument", "Equity", "EquityConversion", "EquityInstrument",
       "OwnersEquity"] 3).suggestions.length ≤ 3 ∧
    (get_class_suggestions "Equty"
      ["DebtInstrument", "Equity", "EquityConversion", "EquityInstrument",
       "OwnersEquity"] 3).suggestions.Nodup :=
  suggestion_list_bounded_and_nodup "Equty"
    ["DebtInstrument", "Equity", "EquityConversion", "EquityInstrument",
     "OwnersEquity"] 3 (by decide)

/-- Claim C3: the suggestion list decomposes, in order, into a block of
substring-tier names, then names only from the close-match tier, then names
only from the character-overlap tier, then names only from the
prefix/suffix tier; and in the spec's scenario the result is not exact and
`"PaidInCapital"` is the first suggestion, found by the substring tier. -/
theorem suggestion_tier_priority (s : String) (C : List String) (k : Nat) :
    (∃ s1 s2 s3 s4 : List String,
      (get_class_suggestions s C k).suggestions = s1 ++ s2 ++ s3 ++ s4 ∧
      (∀ x ∈ s1, x ∈ substringMatches s C) ∧
      (∀ x ∈ s2, x ∈ get_close_matches s C (k * 2) 3 5 ∧
        x ∉ substringMatches s C) ∧
      (∀ x ∈ s3, x ∈ charMatches s C ∧ x ∉ substringMatches s C ∧
        x ∉ get_close_matches s C (k * 2) 3 5) ∧
      (∀ x ∈ s4, x ∈ affixMatches s C ∧ x ∉ substringMatches s C ∧
        x ∉ get_close_matches s C (k * 2) 3 5 ∧ x ∉ charMatches s C)) ∧
    (get_class_suggestions "PaidInCapit"
        ["CapitalSurplus", "OwnersEquity", "PaidInCapital"] 3 =
      ⟨"suggestions", none, ["PaidInCapital"]⟩ ∧
      "PaidInCapital" ∈ substringMatches "PaidInCapit"
        ["CapitalSurplus", "OwnersEquity", "PaidInCapital"]) := by
  constructor
  · rcases gcs_shape s C k with ⟨e, tl, _, _, heq⟩ | ⟨heq, _⟩ | ⟨_, _, _, heq⟩
    · exact ⟨[], [], [], [], by simp [heq], by simp, by simp, by simp, by simp⟩
    · exact ⟨[], [], [], [], by simp [heq], by simp, by simp, by simp, by simp⟩
    · have hmem2 : ∀ x ∈ allSuggestions2 s C k, x ∈ substringMatches s C ∨
          x ∈ get_close_matches s C (k * 2) 3 5 := by
        intro x hx
        rcases List.mem_append.mp hx with h | h
        · exact Or.inl h
        · exact Or.inr (List.mem_filter.mp h).1
      refine ⟨(substringMatches s C).take k,
        ((get_close_matches s C (k * 2) 3 5).filter
          (fun m => !((substringMatches s C).contains m))).take
            (k - (substringMatches s C).length),
        ((charMatches s C).filter
          (fun m => !((allSuggestions2 s C k).contains m))).take
            (k - (allSuggestions2 s C k).length),
        ((affixMatches s C).filter
          (fun m => !((allSuggestions3 s C k).contains m))).take
            (k - (allSuggestions3 s C k).length),
        ?_, ?_, ?_, ?_, ?_⟩
      · rw [heq]
        show combined_suggestions s C k = _
        unfold combined_suggestions
        rw [show allSuggestions4 s C k = allSuggestions3 s C k ++
            (affixMatches s C).filter
              (fun m => !((allSuggestions3 s C k).contains m)) from rfl,
          List.take_append_eq_append_take,
          show allSuggestions3 s C k = allSuggestions2 s C k ++
            (charMatches s C).filter
              (fun m => !((allSuggestions2 s C k).contains m)) from rfl,
          List.take_append_eq_append_take,
          show allSuggestions2 s C k = substringMatches s C ++
            (get_close_matches s C (k * 2) 3 5).filter
              (fun m => !((substringMatches s C).contains m)) from rfl,
          List.take_append_eq_append_take]
      · intro x hx
        exact (List.take_sublist _ _).subset hx
      · intro x hx
        have h := List.mem_filter.mp ((List.take_sublist _ _).subset hx)
        refine ⟨h.1, ?_⟩
        simpa using h.2
      · intro x hx
        have h := List.mem_filter.mp ((List.take_sublist _ _).subset hx)
        have hnotin2 : x ∉ allSuggestions2 s C k := by simpa using h.2
        have hnsub : x ∉ substringMatches s C := fun hs =>
          hnotin2 (List.mem_append_left _ hs)
        refine ⟨h.1, hnsub, fun hcl => hnotin2 ?_⟩
        exact List.mem_append_right _
          (List.mem_filter.mpr ⟨hcl, by simpa using hnsub⟩)
      · intro x hx
        have h := List.mem_filter.mp ((List.take_sublist _ _).subset hx)
        have hnotin3 : x ∉ allSuggestions3 s C k := by simpa using h.2
        have hnotin2 : x ∉ allSuggestions2 s C k := fun h2 =>
          hnotin3 (List.mem_append_left _ h2)
        have hnsub : x ∉ substringMatches s C := fun hs =>
          hnotin2 (List.mem_append_left _ hs)
        have hnclose : x ∉ get_close_matches s C (k * 2) 3 5 := fun hcl =>
          hnotin2 (List.mem_append_right _
            (List.mem_filter.mpr ⟨hcl, by simpa using hnsub⟩))
        refine ⟨h.1, hnsub, hnclose, fun hch => hnotin3 ?_⟩
        exact List.mem_append_right _
          (List.mem_filter.mpr ⟨hch, by simpa using hnotin2⟩)
  · exact ⟨by decide, by decide⟩

/-- Witness for C3, instantiating the tier decomposition at the scenario
input. -/
theorem suggestion_tier_priority_witness :
    ∃ s1 s2 s3 s4 : List String,
      (get_class_suggestions "PaidInCapit"
        ["CapitalSurplus", "OwnersEquity", "PaidInCapital"] 3).suggestions =
        s1 ++ s2 ++ s3 ++ s4 ∧
      (∀ x ∈ s1, x ∈ substringMatches "PaidInCapit"
        ["CapitalSurplus", "OwnersEquity", "PaidInCapital"]) ∧
      (∀ x ∈ s2, x ∈ get_close_matches "PaidInCapit"
        ["CapitalSurplus", "OwnersEquity", "PaidInCapital"] (3 * 2) 3 5 ∧
        x ∉ substringMatches "PaidInCapit"
          ["CapitalSurplus", "OwnersEquity", "PaidInCapital"]) ∧
      (∀ x ∈ s3, x ∈ charMatches "PaidInCapit"
        ["CapitalSurplus", "OwnersEquity", "PaidInCapital"] ∧
        x ∉ substringMatches "PaidInCapit"
          ["CapitalSurplus", "OwnersEquity", "PaidInCapital"] ∧
        x ∉ get_close_matches "PaidInCapit"
          ["CapitalSurplus", "OwnersEquity", "PaidInCapital"] (3 * 2) 3 5) ∧
      (∀ x ∈ s4, x ∈ affixMatches "PaidInCapit"
        ["CapitalSurplus", "OwnersEquity", "PaidInCapital"] ∧
        x ∉ substringMatches "PaidInCapit"
          ["CapitalSurplus", "OwnersEquity", "PaidInCapital"] ∧
        x ∉ get_close_matches "PaidInCapit"
          ["CapitalSurplus", "OwnersEquity", "PaidInCapital"] (3 * 2) 3 5 ∧
        x ∉ charMatches "PaidInCapit"
          ["CapitalSurplus", "OwnersEquity", "PaidInCapital"]) :=
  (suggestion_tier_priority "PaidInCapit"
    ["CapitalSurplus", "OwnersEquity", "PaidInCapital"] 3).1

/-- If every possibility scores below the cutoff, `get_close_matches`
returns nothing. -/
theorem get_close_matches_nil_of_below (word : String) (l : List String)
    (n cnum cden : Nat) (h : ∀ x ∈ l, ratioGe x word cnum cden = false) :
    get_close_matches word l n cnum cden = [] := by
  unfold get_close_matches
  have hnil : l.filterMap (fun x =>
      if ratioGe x word cnum cden then some (ratioFrac x word, x) else none) = [] :=
    List.filterMap_eq_nil_iff.mpr (fun a ha => by simp [h a ha])
  rw [hnil]
  simp

/-- Counterexample to claim C4 as stated: on candidate set `["Foo"]` and
input `"Foo"`, `resolve_class_name_fuzzy` returns the name `"Foo"`, yet the
suggestion list the resolver produces for that same input is empty, so the
returned name does not appear in it (the exact-match path bypasses the
suggestion list and the 0.8-cutoff re-run). -/
theorem resolve_best_exact_counterexample :
    resolve_class_name_fuzzy "Foo" ["Foo"] = some "Foo" ∧
    ((get_class_suggestions "Foo" ["Foo"] 3).suggestions.contains "Foo") = false := by
  decide

/-- Claim C4 as amended: `resolve_class_name_fuzzy` returns no name, or the
exact match carried in the result's match field, or a name from the
suggestion list; whenever the result is not exact, its answer is exactly
the best of the 0.8-cutoff re-run of the similarity metric over the
suggestion list, and in particular it returns no name when no suggestion
reaches 0.8. -/
theorem resolve_best_from_suggestions (s : String) (C : List String) :
    (∀ m, resolve_class_name_fuzzy s C = some m →
      (get_class_suggestions s C 3).matched = some m ∨
        m ∈ (get_class_suggestions s C 3).suggestions) ∧
    ((get_class_suggestions s C 3).type ≠ "exact" →
      resolve_class_name_fuzzy s C =
        (get_close_matches s (get_class_suggestions s C 3).suggestions 1 4 5).head?) ∧
    ((get_class_suggestions s C 3).type ≠ "exact" →
      (∀ m ∈ (get_class_suggestions s C 3).suggestions, ratioGe m s 4 5 = false) →
      resolve_class_name_fuzzy s C = none) := by
  rcases gcs_shape s C 3 with ⟨e, tl, _, _, heq⟩ | ⟨heq, _⟩ | ⟨_, _, hne, heq⟩
  · refine ⟨?_, ?_, ?_⟩
    · intro m hm
      left
      rw [heq]
      simp only [resolve_class_name_fuzzy, heq] at hm
      simpa using hm
    · intro htype
      exact absurd (by rw [heq]) htype
    · intro htype
      exact absurd (by rw [heq]) htype
  · have hres : resolve_class_name_fuzzy s C = none := by
      simp [resolve_class_name_fuzzy, heq]
    refine ⟨?_, ?_, ?_⟩
    · intro m hm
      rw [hres] at hm
      exact absurd hm (by simp)
    · intro _
      rw [hres, heq]
      simp [get_close_matches]
    · intro _ _
      exact hres
  · have hres : resolve_class_name_fuzzy s C =
        (get_close_matches s (combined_suggestions s C 3) 1 4 5).head? := by
      simp only [resolve_class_name_fuzzy, heq]
      rw [if_neg (by simp), if_pos (by simp), if_pos (by simpa using hne)]
      cases get_close_matches s (combined_suggestions s C 3) 1 4 5 with
      | nil => rfl
      | cons a t => rfl
    refine ⟨?_, ?_, ?_⟩
    · intro m hm
      right
      rw [heq]
      rw [hres] at hm
      cases hgc : get_close_matches s (combined_suggestions s C 3) 1 4 5 with
      | nil => rw [hgc] at hm; exact absurd hm (by simp)
      | cons a t =>
        rw [hgc] at hm
        simp only [List.head?_cons, Option.some.injEq] at hm
        subst hm
        exact get_close_matches_subset s (combined_suggestions s C 3) 1 4 5 a
          (by rw [hgc]; exact List.mem_cons_self a t)
    · intro _
      rw [heq] at *
      exact hres
    · intro _ hbelow
      rw [heq] at hbelow
      rw [hres, get_close_matches_nil_of_below s (combined_suggestions s C 3) 1 4 5
        (by simpa using hbelow)]
      rfl

/-- Witness for the amended C4: on the spec's scenario input
`"ShareholderEquity"`, the single best guess is `"ShareholdersEquity"`,
which indeed appears in the suggestion list. -/
theorem resolve_best_from_suggestions_witness :
    (get_class_suggestions "ShareholderEquity"
      ["OwnersEquity", "RetainedEarnings", "ShareholdersEquity"] 3).matched =
        some "ShareholdersEquity" ∨
    "ShareholdersEquity" ∈ (get_class_suggestions "ShareholderEquity"
      ["OwnersEquity", "RetainedEarnings", "ShareholdersEquity"] 3).suggestions :=
  (resolve_best_from_suggestions "ShareholderEquity"
    ["OwnersEquity", "RetainedEarnings", "ShareholdersEquity"]).1
    "ShareholdersEquity" (by decide)

/-- Claim C8: a reasoning-service reply that does not parse as JSON after
stripping code fences makes the pipeline return the explicit parse-failure
text carrying the offending (fence-stripped) reply; the embedded pipeline
is a total function that calls the parse oracle once, mirroring that the
Python code neither retries nor lets the exception escape. -/
theorem parse_failure_surfaced (llm : String → Bool → String)
    (parse : String → Option Plan) (candidates : List String)
    (kb : String → List String → String)
    (synth : String → List StepResult → String) (user_input : String)
    (h : parse (strip_code_fences (llm user_input (is_complex_query user_input))) =
      none) :
    run_natural_language_query llm parse candidates kb synth user_input =
      "❌ Failed to parse LLM output as JSON:\n" ++
        strip_code_fences (llm user_input (is_complex_query user_input)) := by
  simp [run_natural_language_query, h]

/-- Witness for C8: a fenced non-JSON reply is surfaced with its fences
stripped. -/
theorem parse_failure_surfaced_witness :
    run_natural_language_query (fun _ _ => "```json\nnot json\n```")
      (fun _ => none) [] (fun _ _ => "") (fun _ _ => "") "hello" =
      "❌ Failed to parse LLM output as JSON:\nnot json" := by
  rw [parse_failure_surfaced (fun _ _ => "```json\nnot json\n```")
    (fun _ => none) [] (fun _ _ => "") (fun _ _ => "") "hello" rfl]
  decide

/-- Counterexample to claim C9 as stated: with no ontology loaded, the
keyword-search operation does not return a message stating that no ontology
is loaded — it reports that no classes contain the keyword. -/
theorem keyword_search_unloaded_counterexample :
    search_classes_by_keyword [] "equity" =
      "❌ No classes found containing 'equity'" ∧
    strContains (search_classes_by_keyword [] "equity") "No ontology loaded" =
      false := by
  decide

/-- Claim C9 as amended: with the knowledge base not loaded, the hierarchy,
property-lookup, relationship-explanation and statistics operations each
return the explicit precondition message `"❌ No ontology loaded. Please
load modules first."` without touching the loaded-ontology path; the
keyword-search operation, however, performs no such check and reports `"❌
No classes found containing '<keyword>'"` instead. -/
theorem unloaded_operations_precondition (loaded1 loaded2 : Ontology → String → String)
    (loadedR : Ontology → String → String → String)
    (class_name a b keyword current_module_set : String)
    (module_files : List String) :
    get_superclasses none loaded1 class_name =
      "❌ No ontology loaded. Please load modules first." ∧
    get_properties none loaded2 class_name =
      "❌ No ontology loaded. Please load modules first." ∧
    explain_relationship none loadedR a b =
      "❌ No ontology loaded. Please load modules first." ∧
    get_ontology_stats [] current_module_set module_files =
      "❌ No ontology loaded. Please load modules first." ∧
    search_classes_by_keyword [] keyword =
      "❌ No classes found containing '" ++ keyword ++ "'" := by
  refine ⟨rfl, rfl, rfl, ?_, ?_⟩
  · simp [get_ontology_stats]
  · simp [search_classes_by_keyword]

/-- For the nine single-entity operations, the dispatch chain calls the
knowledge-base collaborator under the operation's own name with the
argument list it is given. -/
theorem dispatchCall_single (kb : String → List String → String) (func : String)
    (args : List String) (hmem : func ∈ single_class_functions) :
    dispatchCall kb func args = ⟨func, kb func args⟩ := by
  fin_cases hmem <;> rfl

/-- Single-entity operations skip the two-name resolution phase. -/
theorem executeAfterSingle_single (candidates : List String)
    (kb : String → List String → String) (func : String) (args : List String)
    (hmem : func ∈ single_class_functions) :
    executeAfterSingle candidates kb func args = dispatchCall kb func args := by
  have hne : ¬(func = "explain_relationship" ∨ func = "get_reasoning_chain") := by
    rintro (rfl | rfl) <;> revert hmem <;> decide
  unfold executeAfterSingle
  rw [if_neg hne]

/-- Claim C6: the executor resolves every entity-name argument through the
resolver before dispatch.  For a single-entity operation, an unresolved
name short-circuits the step with the not-found message (including the
suggestion text) and the knowledge-base collaborator is not invoked — the
result does not depend on the oracle `kb`; a resolved name is substituted
in place before the dispatch.  For a two-entity operation, both names are
resolved in order and the step fails on the first unresolved one; when the
first name does not resolve the result does not mention the second
argument at all. -/
theorem executor_resolves_before_dispatch (candidates : List String)
    (kb : String → List String → String) :
    (∀ func a rest, func ∈ single_class_functions →
      (resolve_class_name_fuzzy a candidates = none →
        execute_single_function candidates kb ⟨func, a :: rest⟩ =
          ⟨func, classNotFoundOutput a candidates⟩) ∧
      (∀ r, resolve_class_name_fuzzy a candidates = some r →
        execute_single_function candidates kb ⟨func, a :: rest⟩ =
          ⟨func, kb func (r :: rest)⟩)) ∧
    (∀ func a b rest, func = "explain_relationship" ∨ func = "get_reasoning_chain" →
      (resolve_class_name_fuzzy a candidates = none →
        execute_single_function candidates kb ⟨func, a :: b :: rest⟩ =
          ⟨func, classNotFoundOutput a candidates⟩) ∧
      (∀ r1, resolve_class_name_fuzzy a candidates = some r1 →
        (resolve_class_name_fuzzy b candidates = none →
          execute_single_function candidates kb ⟨func, a :: b :: rest⟩ =
            ⟨func, classNotFoundOutput b candidates⟩) ∧
        (∀ r2, resolve_class_name_fuzzy b candidates = some r2 →
          execute_single_function candidates kb ⟨func, a :: b :: rest⟩ =
            ⟨func, kb func [r1, r2]⟩))) := by
  constructor
  · intro func a rest hmem
    have h1 : ¬(func = "list_classes") := by rintro rfl; revert hmem; decide
    have h2 : ¬(func = "get_ontology_stats") := by rintro rfl; revert hmem; decide
    have h3 : ¬(func = "search_classes_by_keyword") := by rintro rfl; revert hmem; decide
    have hc : single_class_functions.contains func = true := by
      simpa [List.elem_iff] using hmem
    constructor
    · intro hnone
      unfold execute_single_function
      rw [if_neg h1, if_neg h2, if_neg h3, hc, if_pos rfl]
      simp only [hnone]
    · intro r hsome
      unfold execute_single_function
      rw [if_neg h1, if_neg h2, if_neg h3, hc, if_pos rfl]
      simp only [hsome]
      rw [executeAfterSingle_single candidates kb func (r :: rest) hmem,
        dispatchCall_single kb func (r :: rest) hmem]
  · intro func a b rest hor
    rcases hor with rfl | rfl
    · constructor
      · intro hnone
        show (match resolve_class_name_fuzzy a candidates with
          | none =>
            (⟨"explain_relationship", classNotFoundOutput a candidates⟩ : StepResult)
          | some r1 =>
            match resolve_class_name_fuzzy b candidates with
            | none => ⟨"explain_relationship", classNotFoundOutput b candidates⟩
            | some r2 => dispatchCall kb "explain_relationship" (r1 :: r2 :: rest)) = _
        rw [hnone]
      · intro r1 hsome1
        constructor
        · intro hnone2
          show (match resolve_class_name_fuzzy a candidates with
            | none =>
              (⟨"explain_relationship", classNotFoundOutput a candidates⟩ : StepResult)
            | some r1 =>
              match resolve_class_name_fuzzy b candidates with
              | none => ⟨"explain_relationship", classNotFoundOutput b candidates⟩
              | some r2 => dispatchCall kb "explain_relationship" (r1 :: r2 :: rest)) = _
          rw [hsome1, hnone2]
        · intro r2 hsome2
          show (match resolve_class_name_fuzzy a candidates with
            | none =>
              (⟨"explain_relationship", classNotFoundOutput a candidates⟩ : StepResult)
            | some r1 =>
              match resolve_class_name_fuzzy b candidates with
              | none => ⟨"explain_relationship", classNotFoundOutput b candidates⟩
              | some r2 => dispatchCall kb "explain_relationship" (r1 :: r2 :: rest)) = _
          rw [hsome1, hsome2]
          simp [dispatchCall]
    · constructor
      · intro hnone
        show (match resolve_class_name_fuzzy a candidates with
          | none =>
            (⟨"get_reasoning_chain", classNotFoundOutput a candidates⟩ : StepResult)
          | some r1 =>
            match resolve_class_name_fuzzy b candidates with
            | none => ⟨"get_reasoning_chain", classNotFoundOutput b candidates⟩
            | some r2 => dispatchCall kb "get_reasoning_chain" (r1 :: r2 :: rest)) = _
        rw [hnone]
      · intro r1 hsome1
        constructor
        · intro hnone2
          show (match resolve_class_name_fuzzy a candidates with
            | none =>
              (⟨"get_reasoning_chain", classNotFoundOutput a candidates⟩ : StepResult)
            | some r1 =>
              match resolve_class_name_fuzzy b candidates with
              | none => ⟨"get_reasoning_chain", classNotFoundOutput b candidates⟩
              | some r2 => dispatchCall kb "get_reasoning_chain" (r1 :: r2 :: rest)) = _
          rw [hsome1, hnone2]
        · intro r2 hsome2
          show (match resolve_class_name_fuzzy a candidates with
            | none =>
              (⟨"get_reasoning_chain", classNotFoundOutput a candidates⟩ : StepResult)
            | some r1 =>
              match resolve_class_name_fuzzy b candidates with
              | none => ⟨"get_reasoning_chain", classNotFoundOutput b candidates⟩
              | some r2 => dispatchCall kb "get_reasoning_chain" (r1 :: r2 :: rest)) = _
          rw [hsome1, hsome2]
          simp [dispatchCall]

/-- Witness for C6: a resolvable first name and an unresolvable second name
on a concrete candidate set; the step short-circuits with the not-found
output in both the single-name and the two-name shapes. -/
theorem executor_resolves_before_dispatch_witness :
    execute_single_function ["PaidInCapital"] (fun f args => joinWith " " (f :: args))
      ⟨"get_superclasses", ["qqqq"]⟩ =
      ⟨"get_superclasses", classNotFoundOutput "qqqq" ["PaidInCapital"]⟩ ∧
    execute_single_function ["PaidInCapital"] (fun f args => joinWith " " (f :: args))
      ⟨"explain_relationship", ["paidincapital", "qqqq"]⟩ =
      ⟨"explain_relationship", classNotFoundOutput "qqqq" ["PaidInCapital"]⟩ :=
  ⟨((executor_resolves_before_dispatch ["PaidInCapital"]
      (fun f args => joinWith " " (f :: args))).1 "get_superclasses" "qqqq" []
      (by decide)).1 (by decide),
   (((executor_resolves_before_dispatch ["PaidInCapital"]
      (fun f args => joinWith " " (f :: args))).2 "explain_relationship"
      "paidincapital" "qqqq" [] (Or.inl rfl)).2 "PaidInCapital" (by decide)).1 (by decide)⟩

/-- Collected results are exactly the executor outputs of the function
steps, in plan order: no step aborts the rest. -/
theorem runPlanStepsFrom_fst (candidates : List String)
    (kb : String → List String → String)
    (synth : String → List StepResult → String) :
    ∀ (plan : List PlanStep) (acc : List StepResult × Option String),
      (runPlanStepsFrom candidates kb synth acc plan).1 =
        acc.1 ++ plan.filterMap (fun st =>
          match st with
          | PlanStep.call fc => some (execute_single_function candidates kb fc)
          | _ => none) := by
  intro plan
  induction plan with
  | nil => intro acc; simp [runPlanStepsFrom]
  | cons step rest ih =>
    intro acc
    cases step with
    | call fc => simp [runPlanStepsFrom, ih, List.filterMap_cons]
    | analysis instruction => simp [runPlanStepsFrom, ih, List.filterMap_cons]
    | skipped => simp [runPlanStepsFrom, ih, List.filterMap_cons]

/-- Every collected result's output text occurs in the numbered sections of
the final response. -/
theorem output_mem_resultSections (r : StepResult) :
    ∀ (i : Nat) (results : List StepResult), r ∈ results →
      r.output ∈ resultSections i results := by
  intro i results
  induction results generalizing i with
  | nil => intro h; exact absurd h (List.not_mem_nil r)
  | cons x rs ih =>
    intro h
    rcases List.mem_cons.mp h with rfl | h2
    · exact List.mem_cons.mpr (Or.inr (List.mem_cons.mpr (Or.inl rfl)))
    · exact List.mem_cons.mpr (Or.inr (List.mem_cons.mpr (Or.inr
        (List.mem_cons.mpr (Or.inr (ih (i + 1) h2))))))

/-- Claim C7: in a multi-step plan, every function step is executed and its
result collected independently — the collected results are exactly the
per-step executor outputs in plan order, so no step's failure text aborts a
later step — every collected output appears in the compiled response parts,
and the pipeline returns those parts joined as the final response. -/
theorem multi_step_results_all_reported (candidates : List String)
    (kb : String → List String → String)
    (synth : String → List StepResult → String) (steps : List PlanStep) :
    (runPlanSteps candidates kb synth steps).1 =
      steps.filterMap (fun st =>
        match st with
        | PlanStep.call fc => some (execute_single_function candidates kb fc)
        | _ => none) ∧
    (∀ r ∈ (runPlanSteps candidates kb synth steps).1,
      r.output ∈ multiStepResponseParts (runPlanSteps candidates kb synth steps).1
        (runPlanSteps candidates kb synth steps).2) ∧
    (∀ (llm : String → Bool → String) (parse : String → Option Plan)
      (user_input : String),
      parse (strip_code_fences (llm user_input (is_complex_query user_input))) =
        some (Plan.multi steps) →
      run_natural_language_query llm parse candidates kb synth user_input =
        joinWith "\n" (multiStepResponseParts (runPlanSteps candidates kb synth steps).1
          (runPlanSteps candidates kb synth steps).2)) := by
  refine ⟨?_, ?_, ?_⟩
  · unfold runPlanSteps
    simpa using runPlanStepsFrom_fst candidates kb synth steps ([], none)
  · intro r hr
    unfold multiStepResponseParts
    apply List.mem_append_left
    exact List.mem_cons.mpr (Or.inr (output_mem_resultSections r 1 _ hr))
  · intro llm parse user_input h
    simp [run_natural_language_query, h, runPlanSteps]

/-- Witness for C7: the spec's scenario — a two-step plan whose first
entity resolves and whose second does not; both step outputs, the successful
one and the not-found message, appear in the response parts. -/
theorem multi_step_results_all_reported_witness :
    (execute_single_function ["PaidInCapital"] (fun f args => joinWith " " (f :: args))
        ⟨"explain_class", ["PaidInCapital"]⟩).output ∈
      multiStepResponseParts
        (runPlanSteps ["PaidInCapital"] (fun f args => joinWith " " (f :: args))
          (fun instruction _ => instruction)
          [PlanStep.call ⟨"explain_class", ["PaidInCapital"]⟩,
           PlanStep.call ⟨"explain_class", ["qqqq"]⟩]).1
        (runPlanSteps ["PaidInCapital"] (fun f args => joinWith " " (f :: args))
          (fun instruction _ => instruction)
          [PlanStep.call ⟨"explain_class", ["PaidInCapital"]⟩,
           PlanStep.call ⟨"explain_class", ["qqqq"]⟩]).2 ∧
    (execute_single_function ["PaidInCapital"] (fun f args => joinWith " " (f :: args))
        ⟨"explain_class", ["qqqq"]⟩).output ∈
      multiStepResponseParts
        (runPlanSteps ["PaidInCapital"] (fun f args => joinWith " " (f :: args))
          (fun instruction _ => instruction)
          [PlanStep.call ⟨"explain_class", ["PaidInCapital"]⟩,
           PlanStep.call ⟨"explain_class", ["qqqq"]⟩]).1
        (runPlanSteps ["PaidInCapital"] (fun f args => joinWith " " (f :: args))
          (fun instruction _ => instruction)
          [PlanStep.call ⟨"explain_class", ["PaidInCapital"]⟩,
           PlanStep.call ⟨"explain_class", ["qqqq"]⟩]).2 :=
  ⟨(multi_step_results_all_reported ["PaidInCapital"]
      (fun f args => joinWith " " (f :: args)) (fun instruction _ => instruction)
      [PlanStep.call ⟨"explain_class", ["PaidInCapital"]⟩,
       PlanStep.call ⟨"explain_class", ["qqqq"]⟩]).2.1 _ (by decide),
   (multi_step_results_all_reported ["PaidInCapital"]
      (fun f args => joinWith " " (f :: args)) (fun instruction _ => instruction)
      [PlanStep.call ⟨"explain_class", ["PaidInCapital"]⟩,
       PlanStep.call ⟨"explain_class", ["qqqq"]⟩]).2.1 _ (by decide)⟩
